import Mathlib

/-!
Shallow embedding of the core of `db_helper.py` (flight-prep tool):
flight-number normalization and matching, route parsing, route risk/NOTAM
aggregation, airport upsert, profile save/partial-update.

Python strings are sequences of code points; we embed them as `List Char`
(`Str`).  The SQLite tables are embedded as in-memory values: the `flight`
and `airport` tables as lists of rows in insertion order (SQLite returns
rowid = insertion order for the unordered `SELECT` used by
`get_flight_by_number`), and the single-row `profile` table (id = 1
constrained) as an `Option` of a row.  `datetime.now()` is passed in
explicitly as a `now` argument.  Python's `x or ""` on a string column is
the identity once `NULL` is folded away, so row fields are plain `Str`.
-/

/-- Python strings, embedded as their sequence of code points. -/
abbrev Str := List Char

/-- Coercion from a Lean string literal to `Str`. -/
def str (s : String) : Str := s.toList

/-- Whitespace characters recognised by Python's `str.strip()` (ASCII part:
space, tab, newline, carriage return, vertical tab, form feed). -/
def isPySpace (c : Char) : Bool :=
  c == ' ' || c == '\t' || c == '\n' || c == '\r' ||
  c == '\x0b' || c == '\x0c'

/-- Python `s.strip()`: drop whitespace from both ends. -/
def pyStrip (s : Str) : Str :=
  ((s.dropWhile isPySpace).reverse.dropWhile isPySpace).reverse

/-- Python `s.upper()` (per code point; identity on CJK, ASCII case map). -/
def pyUpper (s : Str) : Str := s.map Char.toUpper

/-- Python `s.split(sep)` for a one-character separator: `"" ↦ [""]`,
empty segments kept. -/
def pySplit (sep : Char) : Str → List Str
  | [] => [[]]
  | c :: cs =>
    let r := pySplit sep cs
    if c = sep then [] :: r
    else
      match r with
      | [] => [[c]]
      | h :: t => (c :: h) :: t

/-- Python `"—"→"-"` single-character replacement, per code point. -/
def emRep (c : Char) : Char := if c = '—' then '-' else c

/-- Python `needle in hay` for strings: contiguous-substring containment. -/
def pyIn (needle : Str) : Str → Bool
  | [] => needle == []
  | c :: cs => needle.isPrefixOf (c :: cs) || pyIn needle cs

/-! ## Data model -/

/-- Row of the `airport` table (`id` omitted: no claim mentions it). -/
structure AirportRow where
  airport_name : Str
  risks_tips : Str
  notams_tips : Str
  created_at : Str
  updated_at : Str
  deriving Repr, DecidableEq

/-- Result dict of `get_airport_by_name` (the three selected columns). -/
structure AirportInfo where
  airport_name : Str
  risks_tips : Str
  notams_tips : Str
  deriving Repr, DecidableEq

/-- Row of the `flight` table (`id` omitted: no claim mentions it). -/
structure FlightRow where
  flight_number : Str
  route : Str
  dep_time : Str
  sign_in_time : Str
  created_at : Str
  updated_at : Str
  deriving Repr, DecidableEq

/-- Result dict of `get_flight_by_number` (the four selected columns). -/
structure FlightInfo where
  flight_number : Str
  route : Str
  dep_time : Str
  sign_in_time : Str
  deriving Repr, DecidableEq

/-- Row of the single-slot `profile` table.  The `INSERT` in
`update_last_pf_time` leaves unlisted columns `NULL`, so every data field
is an `Option`. -/
structure ProfileRow where
  name : Option Str
  tech_level : Option Str
  radio_qual : Option Str
  total_landings : Option Int
  total_hours : Option Int
  type_landings : Option Int
  type_hours : Option Int
  previous_aircraft : Option Str
  app_alert : Option Str
  efb_status : Option Str
  last_pf_time : Option Str
  landing_quality : Option Str
  pickup_location : Option Str
  updated_at : Str
  deriving Repr, DecidableEq

/-- The `data` dict passed to `save_profile` (its thirteen `data.get` keys). -/
structure ProfileData where
  name : Option Str
  tech_level : Option Str
  radio_qual : Option Str
  total_landings : Option Int
  total_hours : Option Int
  type_landings : Option Int
  type_hours : Option Int
  previous_aircraft : Option Str
  app_alert : Option Str
  efb_status : Option Str
  last_pf_time : Option Str
  landing_quality : Option Str
  pickup_location : Option Str
  deriving Repr, DecidableEq

/-! ## `db_helper.py` source functions -/

/-- The prefix tuple of `_normalize_flight_number`:
`("CZ", "MU", "CA", "3U", "MF", "HU")`. -/
def carrierPrefixes : List Str :=
  [str "CZ", str "MU", str "CA", str "3U", str "MF", str "HU"]

/-- The `for prefix in (...): if s.startswith(prefix): s = s[len(prefix):].strip(); break`
loop of `_normalize_flight_number`. -/
def stripPrefixLoop : List Str → Str → Str
  | [], s => s
  | p :: ps, s =>
    if p.isPrefixOf s then pyStrip (s.drop p.length)
    else stripPrefixLoop ps s

/-- `db_helper._normalize_flight_number` on a string argument:
`s = num.strip().upper().replace(" ", "")`, then the prefix-strip loop. -/
def _normalize_flight_number (num : Str) : Str :=
  if num = [] then []
  else stripPrefixLoop carrierPrefixes ((pyUpper (pyStrip num)).filter (· ≠ ' '))

/-- `db_helper._normalize_flight_number` including Python's dynamic
`isinstance(num, str)` guard: `none` stands for a non-string (e.g. `None`)
argument and yields `""`. -/
def normalizeOpt : Option Str → Str
  | none => []
  | some num => _normalize_flight_number num

/-- The match condition of the row loop in `get_flight_by_number`:
`_normalize_flight_number(fn) == key or (fn and key in fn) or
(fn and fn in flight_number.strip().upper())`. -/
def flightMatch (flight_number key : Str) (r : FlightRow) : Bool :=
  _normalize_flight_number r.flight_number == key ||
  (!(r.flight_number == []) && pyIn key r.flight_number) ||
  (!(r.flight_number == []) && pyIn r.flight_number (pyUpper (pyStrip flight_number)))

/-- The dict built from a matching row: `{"flight_number": fn, "route": route,
"dep_time": dep, "sign_in_time": sign}`. -/
def flightInfoOf (r : FlightRow) : FlightInfo :=
  ⟨r.flight_number, r.route, r.dep_time, r.sign_in_time⟩

/-- `db_helper.get_flight_by_number`: blank guard, normalize, then the
first-match scan of all flight rows (the `for r in rows` loop with early
`return` is `List.find?`). -/
def get_flight_by_number (rows : List FlightRow) (flight_number : Str) :
    Option FlightInfo :=
  if flight_number = [] ∨ pyStrip flight_number = [] then none
  else
    let key := _normalize_flight_number flight_number
    if key = [] then none
    else (rows.find? (flightMatch flight_number key)).map flightInfoOf

/-- `db_helper.get_airport_by_name`: blank guard, then the SQL
`WHERE airport_name = ?` exact lookup on the trimmed name (the table has
`UNIQUE(airport_name)`; `find?` returns the row). -/
def get_airport_by_name (store : List AirportRow) (airport_name : Str) :
    Option AirportInfo :=
  if airport_name = [] ∨ pyStrip airport_name = [] then none
  else
    (store.find? (fun a => a.airport_name == pyStrip airport_name)).map
      (fun a => ⟨a.airport_name, a.risks_tips, a.notams_tips⟩)

/-- The route tokenizer shared by `get_risks_for_route` and
`get_notams_for_route`:
`[p.strip() for p in route.replace("—", "-").split("-") if p.strip()]`. -/
def parseRoute (route : Str) : List Str :=
  ((pySplit '-' (route.map emRep)).map pyStrip).filter (· ≠ [])

/-- The `for ap in parts` loop of `get_risks_for_route`: `seen` set,
append `f"【{info['airport_name']}\n{info['risks_tips']}"` when the airport
is found and its risk text is truthy. -/
def risksLoop (store : List AirportRow) : List Str → List Str → List Str
  | [], _ => []
  | ap :: rest, seen =>
    if ap ∈ seen then risksLoop store rest seen
    else
      match get_airport_by_name store ap with
      | some info =>
        if info.risks_tips ≠ [] then
          (str "【" ++ info.airport_name ++ str "\n" ++ info.risks_tips) ::
            risksLoop store rest (ap :: seen)
        else risksLoop store rest (ap :: seen)
      | none => risksLoop store rest (ap :: seen)

/-- `db_helper.get_risks_for_route`: blank guard, parse, dedup-and-lookup
loop, `"\n\n".join(lines) if lines else ""`. -/
def get_risks_for_route (store : List AirportRow) (route : Str) : Str :=
  if route = [] ∨ pyStrip route = [] then []
  else
    let parts := parseRoute route
    if parts = [] then []
    else
      let lines := risksLoop store parts []
      if lines = [] then [] else List.intercalate (str "\n\n") lines

/-- The `for ap in parts` loop of `get_notams_for_route` (identical to
`risksLoop` except it consults `notams_tips`). -/
def notamsLoop (store : List AirportRow) : List Str → List Str → List Str
  | [], _ => []
  | ap :: rest, seen =>
    if ap ∈ seen then notamsLoop store rest seen
    else
      match get_airport_by_name store ap with
      | some info =>
        if info.notams_tips ≠ [] then
          (str "【" ++ info.airport_name ++ str "\n" ++ info.notams_tips) ::
            notamsLoop store rest (ap :: seen)
        else notamsLoop store rest (ap :: seen)
      | none => notamsLoop store rest (ap :: seen)

/-- `db_helper.get_notams_for_route`: same shape as `get_risks_for_route`,
consulting `notams_tips`. -/
def get_notams_for_route (store : List AirportRow) (route : Str) : Str :=
  if route = [] ∨ pyStrip route = [] then []
  else
    let parts := parseRoute route
    if parts = [] then []
    else
      let lines := notamsLoop store parts []
      if lines = [] then [] else List.intercalate (str "\n\n") lines

/-- The `DO UPDATE SET risks_tips=excluded.risks_tips,
notams_tips=excluded.notams_tips, updated_at=excluded.updated_at` action of
the airport upsert (name and `created_at` untouched). -/
def chgAirport (risks_tips notams_tips now : Str) (a : AirportRow) : AirportRow :=
  { a with risks_tips := risks_tips, notams_tips := notams_tips,
           updated_at := now }

/-- `db_helper.add_or_update_airport`: the SQL
`INSERT ... ON CONFLICT(airport_name) DO UPDATE SET risks_tips, notams_tips,
updated_at` keyed on the trimmed name (`airport_name.strip()`); `risks_tips
or ""` is the identity on strings. -/
def add_or_update_airport (store : List AirportRow)
    (airport_name risks_tips notams_tips now : Str) : List AirportRow :=
  let nm := pyStrip airport_name
  if store.any (fun a => a.airport_name == nm) then
    store.map (fun a =>
      if a.airport_name == nm then chgAirport risks_tips notams_tips now a else a)
  else store ++ [⟨nm, risks_tips, notams_tips, now, now⟩]

/-- The profile row written by `save_profile`: the thirteen `data.get`
values plus the fresh timestamp. -/
def profileRowOf (data : ProfileData) (now : Str) : ProfileRow :=
  ⟨data.name, data.tech_level, data.radio_qual, data.total_landings,
   data.total_hours, data.type_landings, data.type_hours,
   data.previous_aircraft, data.app_alert, data.efb_status,
   data.last_pf_time, data.landing_quality, data.pickup_location, now⟩

/-- `db_helper.save_profile`: `INSERT ... VALUES (1, ...) ON CONFLICT(id)
DO UPDATE SET` every column, so the single slot always ends up holding the
new data with the fresh timestamp. -/
def save_profile (_store : Option ProfileRow) (data : ProfileData) (now : Str) :
    Option ProfileRow :=
  some (profileRowOf data now)

/-- The row inserted by `update_last_pf_time` when no profile row exists:
`INSERT INTO profile (id, last_pf_time, updated_at)` leaves every other
column `NULL` (a blank-default row). -/
def blankLastPfRow (last_pf_time now : Str) : ProfileRow :=
  ⟨none, none, none, none, none, none, none, none, none, none,
   some last_pf_time, none, none, now⟩

/-- `db_helper.update_last_pf_time`: `SELECT id FROM profile WHERE id = 1`;
if a row exists, `UPDATE profile SET last_pf_time = ?, updated_at = ?`;
otherwise `INSERT INTO profile (id, last_pf_time, updated_at)` leaving the
other columns `NULL`. -/
def update_last_pf_time (store : Option ProfileRow) (last_pf_time now : Str) :
    Option ProfileRow :=
  match store with
  | some r => some { r with last_pf_time := some last_pf_time, updated_at := now }
  | none => some (blankLastPfRow last_pf_time now)

/-- `db_helper.add_or_update_flight`: blank guard (silent `return`), key
`fn = flight_number.strip().upper()`, `SELECT id ... WHERE flight_number = fn`
then `UPDATE` of the found row (the first such row, in rowid order) or
`INSERT` of a new one. -/
def add_or_update_flight (store : List FlightRow)
    (flight_number route dep_time sign_in_time now : Str) : List FlightRow :=
  if flight_number = [] ∨ pyStrip flight_number = [] then store
  else
    let fn := pyUpper (pyStrip flight_number)
    if store.any (fun r => r.flight_number == fn) then
      updateFirst store fn route dep_time sign_in_time now
    else store ++ [⟨fn, route, dep_time, sign_in_time, now, now⟩]
where
  /-- `UPDATE flight SET route, dep_time, sign_in_time, updated_at WHERE id = row[0]`:
  only the first row whose `flight_number` equals `fn` is touched. -/
  updateFirst : List FlightRow → Str → Str → Str → Str → Str → List FlightRow
  | [], _, _, _, _, _ => []
  | r :: rs, fn, route, dep, sign, now =>
    if r.flight_number == fn then
      { r with route := route, dep_time := dep, sign_in_time := sign,
               updated_at := now } :: rs
    else r :: updateFirst rs fn route dep sign now

/-! ## Spec-side definitions

These follow the wording of the specification (sections 4.1 and 4.4) and are
compared with the source embeddings above. -/

/-- Field selector of the spec contract
`aggregate(store, route, field: "risks"|"notices")`. -/
inductive AggField where
  | risks
  | notices
  deriving Repr, DecidableEq

/-- The text of the requested field of an airport entry. -/
def fieldText : AggField → AirportInfo → Str
  | .risks, i => i.risks_tips
  | .notices, i => i.notams_tips

/-- Spec §4.4: look an airport up "by exact trimmed-name match in the
Lookup Store". -/
def lookupAirport (store : List AirportRow) (name : Str) : Option AirportInfo :=
  (store.find? (fun a => a.airport_name == pyStrip name)).map
    (fun a => ⟨a.airport_name, a.risks_tips, a.notams_tips⟩)

/-- Spec §4.4: the block one airport contributes — a header line naming the
airport followed by the requested field's text, produced only when the
airport is found and that field is non-empty. -/
def blockFor (store : List AirportRow) (f : AggField) (ap : Str) : Option Str :=
  match lookupAirport store ap with
  | some info =>
    if fieldText f info = [] then none
    else some (str "【" ++ info.airport_name ++ str "\n" ++ fieldText f info)
  | none => none

/-- First-occurrence deduplication relative to an already-`seen` set
(spec §4.4: "skipping any name already processed; first occurrence wins"). -/
def dedupSeen (seen : List Str) : List Str → List Str
  | [] => []
  | x :: xs => if x ∈ seen then dedupSeen seen xs else x :: dedupSeen (x :: seen) xs

/-- First-occurrence deduplication of a list of names. -/
def dedupFirst (l : List Str) : List Str := dedupSeen [] l

/-- Spec §4.4, the single aggregation contract
`aggregate(store, route, field) -> string`: parse the route, keep first
occurrences, collect each found airport's non-empty block for the requested
field, join with a blank-line separator (joining zero blocks gives `""`). -/
def aggregate (store : List AirportRow) (route : Str) (f : AggField) : Str :=
  List.intercalate (str "\n\n")
    ((dedupFirst (parseRoute route)).filterMap (blockFor store f))

/-- Spec §4.1: trim, upper-case, remove internal spaces, then strip at most
one leading carrier prefix of the fixed set (trimming again after the
strip), leaving the string otherwise unchanged. -/
def normalizeSpec (num : Str) : Str :=
  let t := (pyUpper (pyStrip num)).filter (· ≠ ' ')
  match carrierPrefixes.find? (fun p => p.isPrefixOf t) with
  | some p => pyStrip (t.drop p.length)
  | none => t

/-- Equality of two profile rows on every field other than `last_pf_time`
and `updated_at` (the frame of `update_last_pf_time`). -/
def profileFrameEq (a b : ProfileRow) : Prop :=
  a.name = b.name ∧ a.tech_level = b.tech_level ∧ a.radio_qual = b.radio_qual ∧
  a.total_landings = b.total_landings ∧ a.total_hours = b.total_hours ∧
  a.type_landings = b.type_landings ∧ a.type_hours = b.type_hours ∧
  a.previous_aircraft = b.previous_aircraft ∧ a.app_alert = b.app_alert ∧
  a.efb_status = b.efb_status ∧ a.landing_quality = b.landing_quality ∧
  a.pickup_location = b.pickup_location

/-! ## Concrete stores used in the examples of the spec -/

/-- Airport store of the spec's aggregation example: risk text for 三亚 and
浦东. -/
def exAirportStore : List AirportRow :=
  [⟨str "三亚", str "注意风切变", str "", str "t0", str "t0"⟩,
   ⟨str "浦东", str "跑道施工", str "", str "t0", str "t0"⟩]

/-- A stored flight whose raw number is `"CZ3835/6"`. -/
def exFlightRowA : FlightRow :=
  ⟨str "CZ3835/6", str "三亚-浦东", str "0800", str "0630", str "t0", str "t0"⟩

/-- A stored flight whose raw number is `"CZ3835"`. -/
def exFlightRowB : FlightRow :=
  ⟨str "CZ3835", str "三亚-浦东", str "0800", str "0630", str "t0", str "t0"⟩

/-- A stored airport entry named `"A"`. -/
def exAirportRow : AirportRow :=
  ⟨str "A", str "r0", str "n0", str "t0", str "t0"⟩

/-! ## String lemmas -/

/-- `pyStrip` is front-trim followed by Mathlib's back-trim `rdropWhile`. -/
theorem pyStrip_eq (s : Str) :
    pyStrip s = List.rdropWhile isPySpace (s.dropWhile isPySpace) := rfl

/-- `pyStrip` yields the empty string exactly on all-whitespace input. -/
theorem pyStrip_eq_nil_iff {s : Str} :
    pyStrip s = [] ↔ ∀ c ∈ s, isPySpace c := by
  rw [pyStrip_eq, List.rdropWhile_eq_nil_iff]
  constructor
  · intro h c hc
    have hnil : s.dropWhile isPySpace = [] := by
      by_contra hne
      have hhead := List.head_dropWhile_not isPySpace s hne
      have := h _ (List.head_mem hne)
      simp [this] at hhead
    exact List.dropWhile_eq_nil_iff.mp hnil c hc
  · intro h c hc
    have hsuf : List.dropWhile isPySpace s <:+ s := List.dropWhile_suffix isPySpace
    exact h c (hsuf.subset hc)

/-- `pyStrip` is idempotent. -/
theorem pyStrip_idem (s : Str) : pyStrip (pyStrip s) = pyStrip s := by
  rw [pyStrip_eq s, pyStrip_eq]
  have hclean : List.dropWhile isPySpace
      (List.rdropWhile isPySpace (s.dropWhile isPySpace)) =
      List.rdropWhile isPySpace (s.dropWhile isPySpace) := by
    cases hy : List.rdropWhile isPySpace (s.dropWhile isPySpace) with
    | nil => rfl
    | cons a u =>
      have hpre : List.rdropWhile isPySpace (s.dropWhile isPySpace) <+:
          s.dropWhile isPySpace := List.rdropWhile_prefix ..
      rw [hy] at hpre
      obtain ⟨r, hr⟩ := hpre
      have hna : ¬ isPySpace a = true := by
        intro hpa
        have ht : List.dropWhile isPySpace (s.dropWhile isPySpace) =
            s.dropWhile isPySpace := List.dropWhile_idempotent ..
        rw [← hr, List.cons_append, List.dropWhile_cons_of_pos hpa] at ht
        have hsuf : List.dropWhile isPySpace (u ++ r) <:+ u ++ r :=
          List.dropWhile_suffix isPySpace
        have hle := hsuf.length_le
        rw [ht] at hle
        simp at hle
      simp [List.dropWhile_cons_of_neg hna]
  rw [hclean, List.rdropWhile_idempotent]

/-- Splitting a list containing no separator gives it back whole. -/
theorem pySplit_no_sep {sep : Char} :
    ∀ {l : Str}, (∀ c ∈ l, c ≠ sep) → pySplit sep l = [l]
  | [], _ => rfl
  | c :: cs, h => by
    have hc : c ≠ sep := h c (by simp)
    have ih := pySplit_no_sep (fun x hx => h x (List.mem_cons_of_mem _ hx))
    simp [pySplit, hc, ih]

/-- Blank input (whitespace only, including empty) parses to no segments. -/
theorem parseRoute_blank {route : Str} (h : ∀ c ∈ route, isPySpace c) :
    parseRoute route = [] := by
  have hmap : route.map emRep = route := by
    have : ∀ c ∈ route, emRep c = c := by
      intro c hc
      have := h c hc
      have hne : c ≠ '—' := by
        intro he; subst he; simp [isPySpace] at this
      simp [emRep, hne]
    calc route.map emRep = route.map id := List.map_congr_left this
    _ = route := List.map_id route
  have hnosep : ∀ c ∈ route, c ≠ '-' := by
    intro c hc he
    subst he
    have := h _ hc
    simp [isPySpace] at this
  have hstrip : pyStrip route = [] := pyStrip_eq_nil_iff.mpr h
  simp [parseRoute, hmap, pySplit_no_sep hnosep, hstrip]

/-- Every parsed route segment is non-empty and already trimmed. -/
theorem parseRoute_mem {route : Str} {ap : Str} (h : ap ∈ parseRoute route) :
    ap ≠ [] ∧ pyStrip ap = ap := by
  unfold parseRoute at h
  have h1 := List.of_mem_filter h
  have h2 := List.mem_of_mem_filter h
  refine ⟨by simpa using h1, ?_⟩
  obtain ⟨p, _, hp⟩ := List.mem_map.mp h2
  rw [← hp, pyStrip_idem]

/-- A blank flight number normalizes to the empty string. -/
theorem normalize_blank {num : Str} (h : pyStrip num = []) :
    _normalize_flight_number num = [] := by
  unfold _normalize_flight_number
  by_cases h0 : num = []
  · simp [h0]
  · rw [if_neg h0, h]
    rfl

/-! ## Aggregation lemmas -/

/-- On a non-blank, already-trimmed name the source lookup is the spec's
exact trimmed-name lookup. -/
theorem get_airport_eq_lookup {store : List AirportRow} {ap : Str}
    (h1 : ap ≠ []) (h2 : pyStrip ap = ap) :
    get_airport_by_name store ap = lookupAirport store ap := by
  unfold get_airport_by_name lookupAirport
  rw [if_neg]
  rintro (h | h)
  · exact h1 h
  · rw [h2] at h
    exact h1 h

/-- The risk loop of the source equals first-occurrence dedup followed by
block collection. -/
theorem risksLoop_eq (store : List AirportRow) :
    ∀ (parts seen : List Str), (∀ ap ∈ parts, ap ≠ [] ∧ pyStrip ap = ap) →
      risksLoop store parts seen =
        (dedupSeen seen parts).filterMap (blockFor store AggField.risks)
  | [], _, _ => rfl
  | ap :: rest, seen, h => by
    obtain ⟨h1, h2⟩ := h ap (by simp)
    have hrest : ∀ a ∈ rest, a ≠ [] ∧ pyStrip a = a :=
      fun a ha => h a (List.mem_cons_of_mem _ ha)
    by_cases hseen : ap ∈ seen
    · simp [risksLoop, dedupSeen, hseen, risksLoop_eq store rest seen hrest]
    · have hlk := @get_airport_eq_lookup store ap h1 h2
      cases hinfo : lookupAirport store ap with
      | none =>
        simp [risksLoop, dedupSeen, hseen, hlk, hinfo, List.filterMap_cons,
              blockFor, risksLoop_eq store rest (ap :: seen) hrest]
      | some info =>
        by_cases hrt : info.risks_tips = []
        · simp [risksLoop, dedupSeen, hseen, hlk, hinfo, List.filterMap_cons,
                blockFor, fieldText, hrt, risksLoop_eq store rest (ap :: seen) hrest]
        · simp [risksLoop, dedupSeen, hseen, hlk, hinfo, List.filterMap_cons,
                blockFor, fieldText, hrt, risksLoop_eq store rest (ap :: seen) hrest]

/-- The NOTAM loop of the source equals first-occurrence dedup followed by
block collection. -/
theorem notamsLoop_eq (store : List AirportRow) :
    ∀ (parts seen : List Str), (∀ ap ∈ parts, ap ≠ [] ∧ pyStrip ap = ap) →
      notamsLoop store parts seen =
        (dedupSeen seen parts).filterMap (blockFor store AggField.notices)
  | [], _, _ => rfl
  | ap :: rest, seen, h => by
    obtain ⟨h1, h2⟩ := h ap (by simp)
    have hrest : ∀ a ∈ rest, a ≠ [] ∧ pyStrip a = a :=
      fun a ha => h a (List.mem_cons_of_mem _ ha)
    by_cases hseen : ap ∈ seen
    · simp [notamsLoop, dedupSeen, hseen, notamsLoop_eq store rest seen hrest]
    · have hlk := @get_airport_eq_lookup store ap h1 h2
      cases hinfo : lookupAirport store ap with
      | none =>
        simp [notamsLoop, dedupSeen, hseen, hlk, hinfo, List.filterMap_cons,
              blockFor, notamsLoop_eq store rest (ap :: seen) hrest]
      | some info =>
        by_cases hrt : info.notams_tips = []
        · simp [notamsLoop, dedupSeen, hseen, hlk, hinfo, List.filterMap_cons,
                blockFor, fieldText, hrt, notamsLoop_eq store rest (ap :: seen) hrest]
        · simp [notamsLoop, dedupSeen, hseen, hlk, hinfo, List.filterMap_cons,
                blockFor, fieldText, hrt, notamsLoop_eq store rest (ap :: seen) hrest]

/-- Source risk aggregation equals the spec contract at field `risks`. -/
theorem risks_char (store : List AirportRow) (route : Str) :
    get_risks_for_route store route = aggregate store route AggField.risks := by
  unfold get_risks_for_route aggregate
  by_cases hb : route = [] ∨ pyStrip route = []
  · have hblank : ∀ c ∈ route, isPySpace c := by
      rcases hb with h | h
      · subst h; simp
      · exact pyStrip_eq_nil_iff.mp h
    rw [if_pos hb, parseRoute_blank hblank]
    rfl
  · rw [if_neg hb]
    by_cases hp : parseRoute route = []
    · simp [hp, dedupFirst, dedupSeen]
      rfl
    · have hloop := risksLoop_eq store (parseRoute route) []
        (fun ap h => parseRoute_mem h)
      simp only [if_neg hp, hloop, dedupFirst]
      by_cases hl :
          (dedupSeen [] (parseRoute route)).filterMap (blockFor store AggField.risks) = []
      · rw [hl]
        rfl
      · rw [if_neg hl]

/-- Source NOTAM aggregation equals the spec contract at field `notices`. -/
theorem notams_char (store : List AirportRow) (route : Str) :
    get_notams_for_route store route = aggregate store route AggField.notices := by
  unfold get_notams_for_route aggregate
  by_cases hb : route = [] ∨ pyStrip route = []
  · have hblank : ∀ c ∈ route, isPySpace c := by
      rcases hb with h | h
      · subst h; simp
      · exact pyStrip_eq_nil_iff.mp h
    rw [if_pos hb, parseRoute_blank hblank]
    rfl
  · rw [if_neg hb]
    by_cases hp : parseRoute route = []
    · simp [hp, dedupFirst, dedupSeen]
      rfl
    · have hloop := notamsLoop_eq store (parseRoute route) []
        (fun ap h => parseRoute_mem h)
      simp only [if_neg hp, hloop, dedupFirst]
      by_cases hl :
          (dedupSeen [] (parseRoute route)).filterMap (blockFor store AggField.notices) = []
      · rw [hl]
        rfl
      · rw [if_neg hl]

/-! ## Normalization lemmas -/

/-- The source's prefix loop is `find?` over the prefix list. -/
theorem stripPrefixLoop_eq_find :
    ∀ (ps : List Str) (s : Str),
      stripPrefixLoop ps s =
        match ps.find? (fun p => p.isPrefixOf s) with
        | some p => pyStrip (s.drop p.length)
        | none => s
  | [], _ => rfl
  | p :: ps, s => by
    by_cases hp : p.isPrefixOf s
    · simp [stripPrefixLoop, List.find?_cons, hp]
    · simp only [stripPrefixLoop, if_neg hp, List.find?_cons]
      rw [stripPrefixLoop_eq_find ps s]
      have : (p.isPrefixOf s) = false := by simp [hp]
      simp [this]

/-- The source normalizer equals the spec §4.1 pipeline. -/
theorem normalize_eq_spec (num : Str) :
    _normalize_flight_number num = normalizeSpec num := by
  unfold _normalize_flight_number normalizeSpec
  by_cases h0 : num = []
  · subst h0
    rfl
  · rw [if_neg h0, stripPrefixLoop_eq_find]

/-! ## Airport upsert lemmas -/

/-- Updating the matching entries in place commutes with the keyed lookup:
the found row is the old row with the update applied. -/
theorem find?_map_chg (nm r n now : Str) (st : List AirportRow) :
    (st.map (fun a => if a.airport_name == nm then chgAirport r n now a else a)).find?
        (fun a => a.airport_name == nm) =
      (st.find? (fun a => a.airport_name == nm)).map (chgAirport r n now) := by
  rw [List.find?_map]
  have hpf : ((fun a => a.airport_name == nm) ∘
      fun a => if a.airport_name == nm then chgAirport r n now a else a) =
      fun a => a.airport_name == nm := by
    funext a
    by_cases h : a.airport_name = nm
    · simp [h, chgAirport]
    · simp [h]
  rw [hpf]
  cases hf : st.find? (fun a => a.airport_name == nm) with
  | none => rfl
  | some a =>
    have ha : a.airport_name = nm := by simpa using List.find?_some hf
    simp [ha]

/-- Updating entries in place never changes the list of stored names. -/
theorem names_map_chg (nm r n now : Str) (st : List AirportRow) :
    (st.map (fun a => if a.airport_name == nm then chgAirport r n now a else a)).map
        (·.airport_name) =
      st.map (·.airport_name) := by
  rw [List.map_map]
  apply List.map_congr_left
  intro a _
  by_cases h : a.airport_name = nm
  · simp [h, chgAirport]
  · simp [h]

/-! ## Claim theorems -/

/-- C1: for every store and every input whose normalization is non-empty,
`get_flight_by_number` returns the first record in store-iteration order
whose stored number matches by normalized equality, by the key being a
substring of a non-empty stored number, or by a non-empty stored number
being a substring of the trimmed upper-cased raw input; in particular a
record numbered `"CZ3835/6"` matches input `"3835"` and a record numbered
`"CZ3835"` matches input `"CZ3835/6"`. -/
theorem C1_flight_match :
    (∀ (rows : List FlightRow) (fn : Str), _normalize_flight_number fn ≠ [] →
      get_flight_by_number rows fn =
        (rows.find? (flightMatch fn (_normalize_flight_number fn))).map flightInfoOf)
    ∧ (∀ r : FlightRow, r.flight_number = str "CZ3835/6" →
        flightMatch (str "3835") (_normalize_flight_number (str "3835")) r = true)
    ∧ (∀ r : FlightRow, r.flight_number = str "CZ3835" →
        flightMatch (str "CZ3835/6") (_normalize_flight_number (str "CZ3835/6")) r = true) := by
  refine ⟨?_, ?_, ?_⟩
  · intro rows fn h
    have h1 : fn ≠ [] := by
      rintro rfl
      exact h rfl
    have h2 : pyStrip fn ≠ [] := fun hb => h (normalize_blank hb)
    have hguard : ¬(fn = [] ∨ pyStrip fn = []) := by
      rintro (hh | hh)
      exacts [h1 hh, h2 hh]
    simp only [get_flight_by_number]
    rw [if_neg hguard, if_neg h]
  · intro r hr
    unfold flightMatch
    rw [hr]
    decide
  · intro r hr
    unfold flightMatch
    rw [hr]
    decide

/-- Witness for C1 at concrete stores: a store holding `"CZ3835/6"` is
matched by input `"3835"`, and a store holding `"CZ3835"` by input
`"CZ3835/6"`. -/
theorem C1_flight_match_witness :
    get_flight_by_number [exFlightRowA] (str "3835") = some (flightInfoOf exFlightRowA)
    ∧ get_flight_by_number [exFlightRowB] (str "CZ3835/6") =
        some (flightInfoOf exFlightRowB) := by
  constructor
  · rw [C1_flight_match.1 [exFlightRowA] (str "3835") (by decide)]
    decide
  · rw [C1_flight_match.1 [exFlightRowB] (str "CZ3835/6") (by decide)]
    decide

/-- C2: both aggregators process parsed airport names in order with
first-occurrence deduplication, appending a header-plus-text block exactly
for those first occurrences found by exact trimmed-name lookup with a
non-empty requested field, joined by blank lines; the round-trip route
三亚-浦东-三亚 over the example store yields exactly two blocks, 三亚 then
浦东. -/
theorem C2_aggregator_blocks :
    (∀ (store : List AirportRow) (route : Str),
      get_risks_for_route store route =
        List.intercalate (str "\n\n")
          ((dedupFirst (parseRoute route)).filterMap (blockFor store AggField.risks)))
    ∧ (∀ (store : List AirportRow) (route : Str),
      get_notams_for_route store route =
        List.intercalate (str "\n\n")
          ((dedupFirst (parseRoute route)).filterMap (blockFor store AggField.notices)))
    ∧ get_risks_for_route exAirportStore (str "三亚-浦东-三亚") =
        str "【三亚\n注意风切变\n\n【浦东\n跑道施工" := by
  refine ⟨fun store route => risks_char store route,
          fun store route => notams_char store route, by decide⟩

/-- C3: the flight-number normalizer is exactly the spec pipeline — trim,
upper-case, remove internal spaces, strip at most one carrier prefix of
{CZ, MU, CA, 3U, MF, HU} with a re-trim — and empty or non-string input
yields the empty string (the function is total, so no exception is ever
raised); `normalize("CZ3835") = normalize("cz 3835") = "3835"`. -/
theorem C3_normalize :
    (∀ num : Str, _normalize_flight_number num = normalizeSpec num)
    ∧ normalizeOpt none = []
    ∧ _normalize_flight_number (str "") = []
    ∧ _normalize_flight_number (str "CZ3835") = str "3835"
    ∧ _normalize_flight_number (str "cz 3835") = str "3835" := by
  refine ⟨normalize_eq_spec, rfl, rfl, by decide, by decide⟩

/-- C4: route parsing replaces em-dashes by hyphens, splits on hyphen,
trims segments and drops empty ones, preserving order and duplicates;
blank input parses to nothing, 三亚-浦东-三亚 parses to its three segments
in order, and an em-dash-written route behaves identically to its
hyphen-written form. -/
theorem C4_parse_route :
    (∀ route : Str, (∀ c ∈ route, isPySpace c) → parseRoute route = [])
    ∧ parseRoute (str "三亚-浦东-三亚") = [str "三亚", str "浦东", str "三亚"]
    ∧ (∀ route : Str, parseRoute (route.map emRep) = parseRoute route)
    ∧ parseRoute (str "三亚—浦东") = parseRoute (str "三亚-浦东") := by
  refine ⟨fun route h => parseRoute_blank h, by decide, ?_, by decide⟩
  intro route
  unfold parseRoute
  rw [List.map_map]
  have hmm : ∀ c ∈ route, (emRep ∘ emRep) c = emRep c := by
    intro c _
    by_cases h : c = '—'
    · subst h
      decide
    · show emRep (emRep c) = emRep c
      unfold emRep
      rw [if_neg h, if_neg h]
  rw [List.map_congr_left hmm]

/-- Witness for C4 at a concrete blank route. -/
theorem C4_parse_route_witness : parseRoute (str " \t ") = [] :=
  C4_parse_route.1 (str " \t ") (by decide)

/-- C5: `get_flight_by_number` returns `none` for blank input, for input
with empty normalized key, and on an empty store; misses are values, not
exceptions. -/
theorem C5_not_found :
    (∀ (rows : List FlightRow) (fn : Str), pyStrip fn = [] →
        get_flight_by_number rows fn = none)
    ∧ (∀ (rows : List FlightRow) (fn : Str), _normalize_flight_number fn = [] →
        get_flight_by_number rows fn = none)
    ∧ (∀ fn : Str, get_flight_by_number [] fn = none)
    ∧ get_flight_by_number [exFlightRowA, exFlightRowB] (str "") = none
    ∧ get_flight_by_number [] (str "CZ9999") = none := by
  refine ⟨?_, ?_, ?_, by decide, by decide⟩
  · intro rows fn h
    simp only [get_flight_by_number]
    rw [if_pos (Or.inr h)]
  · intro rows fn h
    simp only [get_flight_by_number]
    by_cases hb : fn = [] ∨ pyStrip fn = []
    · rw [if_pos hb]
    · rw [if_neg hb, if_pos h]
  · intro fn
    simp only [get_flight_by_number]
    by_cases hb : fn = [] ∨ pyStrip fn = []
    · rw [if_pos hb]
    · rw [if_neg hb]
      by_cases hk : _normalize_flight_number fn = []
      · rw [if_pos hk]
      · rw [if_neg hk]
        rfl

/-- Witness for C5: a blank input and an input normalizing to `""`
(`"CZ"` loses its prefix) both miss against a non-empty store. -/
theorem C5_not_found_witness :
    get_flight_by_number [exFlightRowA] (str "  ") = none
    ∧ get_flight_by_number [exFlightRowA] (str "CZ") = none :=
  ⟨C5_not_found.1 [exFlightRowA] (str "  ") (by decide),
   C5_not_found.2.1 [exFlightRowA] (str "CZ") (by decide)⟩

/-- C6: the risk aggregator returns the empty string on blank routes, on
routes with no parsed segment, and whenever no airport contributes a
block (unknown airports are skipped, never an error); over the example
store, route "A-B" with neither airport stored yields `""`. -/
theorem C6_aggregator_empty :
    (∀ (store : List AirportRow) (route : Str), pyStrip route = [] →
        get_risks_for_route store route = [])
    ∧ (∀ (store : List AirportRow) (route : Str), parseRoute route = [] →
        get_risks_for_route store route = [])
    ∧ (∀ (store : List AirportRow) (route : Str),
        (∀ ap ∈ dedupFirst (parseRoute route), blockFor store AggField.risks ap = none) →
        get_risks_for_route store route = [])
    ∧ get_risks_for_route exAirportStore (str "A-B") = [] := by
  refine ⟨?_, ?_, ?_, by decide⟩
  · intro store route h
    simp only [get_risks_for_route]
    rw [if_pos (Or.inr h)]
  · intro store route h
    rw [risks_char]
    unfold aggregate
    rw [h]
    rfl
  · intro store route h
    rw [risks_char]
    unfold aggregate
    rw [List.filterMap_eq_nil_iff.mpr h]
    rfl

/-- Witness for C6: a whitespace route and a route of two uncatalogued
airports both aggregate to `""` over the example store. -/
theorem C6_aggregator_empty_witness :
    get_risks_for_route exAirportStore (str " ") = []
    ∧ get_risks_for_route exAirportStore (str "X-Y") = [] :=
  ⟨C6_aggregator_empty.1 exAirportStore (str " ") (by decide),
   C6_aggregator_empty.2.2.1 exAirportStore (str "X-Y") (by decide)⟩

/-- C7: saving twice leaves the single profile slot holding exactly the
second save's values with its timestamp; `update_last_pf_time` on an
existing row changes only `last_pf_time` and `updated_at`, leaving every
other field identical, and inserts the blank-default row when no profile
row exists. -/
theorem C7_profile_frame :
    (∀ (st : Option ProfileRow) (d1 : ProfileData) (t1 : Str)
        (d2 : ProfileData) (t2 : Str),
        save_profile (save_profile st d1 t1) d2 t2 = some (profileRowOf d2 t2))
    ∧ (∀ (r : ProfileRow) (v now : Str), ∃ r',
        update_last_pf_time (some r) v now = some r' ∧
        r'.last_pf_time = some v ∧ r'.updated_at = now ∧ profileFrameEq r' r)
    ∧ (∀ v now : Str, update_last_pf_time none v now = some (blankLastPfRow v now)) := by
  refine ⟨fun _ _ _ _ _ => rfl, ?_, fun _ _ => rfl⟩
  intro r v now
  refine ⟨_, rfl, rfl, rfl, ?_⟩
  exact ⟨rfl, rfl, rfl, rfl, rfl, rfl, rfl, rfl, rfl, rfl, rfl, rfl⟩

/-- C8: the airport upsert keeps stored names duplicate-free, an upsert by
an already-used trimmed name leaves the name list unchanged (no new entry),
and the entry found under that name afterwards is the old entry with its
risk text, notice text and update timestamp overwritten. -/
theorem C8_airport_upsert :
    (∀ (st : List AirportRow) (nm r n now : Str),
        (st.map (·.airport_name)).Nodup →
        ((add_or_update_airport st nm r n now).map (·.airport_name)).Nodup)
    ∧ (∀ (st : List AirportRow) (nm r n now : Str),
        pyStrip nm ∈ st.map (·.airport_name) →
        (add_or_update_airport st nm r n now).map (·.airport_name) =
          st.map (·.airport_name))
    ∧ (∀ (st : List AirportRow) (nm r n now : Str) (old : AirportRow),
        st.find? (fun a => a.airport_name == pyStrip nm) = some old →
        (add_or_update_airport st nm r n now).find?
            (fun a => a.airport_name == pyStrip nm) =
          some (chgAirport r n now old)) := by
  refine ⟨?_, ?_, ?_⟩
  · intro st nm r n now h
    simp only [add_or_update_airport]
    cases hany : st.any (fun a => a.airport_name == pyStrip nm) with
    | true =>
      rw [if_pos rfl, names_map_chg]
      exact h
    | false =>
      rw [if_neg (by simp [hany])]
      rw [List.map_append]
      rw [List.nodup_append]
      refine ⟨h, List.nodup_singleton _, ?_⟩
      have hnot := List.any_eq_false.mp hany
      intro x hx hx1
      simp at hx1
      subst hx1
      obtain ⟨a, ha, hname⟩ := List.mem_map.mp hx
      exact hnot a ha (by simp [hname])
  · intro st nm r n now h
    obtain ⟨a, ha, hname⟩ := List.mem_map.mp h
    have hany : st.any (fun a => a.airport_name == pyStrip nm) = true :=
      List.any_eq_true.mpr ⟨a, ha, by simp [hname]⟩
    simp only [add_or_update_airport]
    rw [if_pos hany, names_map_chg]
  · intro st nm r n now old hfind
    have hp := @List.find?_some AirportRow
      (fun a : AirportRow => a.airport_name == pyStrip nm) old st hfind
    have hany : st.any (fun a => a.airport_name == pyStrip nm) = true :=
      List.any_eq_true.mpr ⟨old, List.mem_of_find?_eq_some hfind, hp⟩
    simp only [add_or_update_airport]
    rw [if_pos hany, find?_map_chg, hfind]
    rfl

/-- Witness for C8 at a concrete store: upserting the existing name `"A"`
preserves name uniqueness and overwrites the entry in place. -/
theorem C8_airport_upsert_witness :
    ((add_or_update_airport [exAirportRow] (str "A") (str "r1") (str "n1")
        (str "t1")).map (·.airport_name)).Nodup
    ∧ (add_or_update_airport [exAirportRow] (str "A") (str "r1") (str "n1")
          (str "t1")).find? (fun a => a.airport_name == pyStrip (str "A")) =
        some (chgAirport (str "r1") (str "n1") (str "t1") exAirportRow) :=
  ⟨C8_airport_upsert.1 [exAirportRow] (str "A") (str "r1") (str "n1") (str "t1")
     (by decide),
   C8_airport_upsert.2.2 [exAirportRow] (str "A") (str "r1") (str "n1") (str "t1")
     exAirportRow (by decide)⟩

/-- C9: `get_risks_for_route` and `get_notams_for_route` are the two
instances of the single contract `aggregate(store, route, field)` at
`risks` and `notices` respectively. -/
theorem C9_two_instances :
    ∀ (store : List AirportRow) (route : Str),
      get_risks_for_route store route = aggregate store route AggField.risks ∧
      get_notams_for_route store route = aggregate store route AggField.notices :=
  fun store route => ⟨risks_char store route, notams_char store route⟩

/-- C10: `add_or_update_flight` with an empty or whitespace-only flight
number is a silent no-op, leaving the flight store unchanged for every
route, departure time, sign-in time and store state. -/
theorem C10_blank_flight_noop :
    ∀ (st : List FlightRow) (fn route dep sign now : Str),
      (∀ c ∈ fn, isPySpace c) →
      add_or_update_flight st fn route dep sign now = st := by
  intro st fn route dep sign now h
  have hb : pyStrip fn = [] := pyStrip_eq_nil_iff.mpr h
  simp only [add_or_update_flight]
  rw [if_pos (Or.inr hb)]

/-- Witness for C10: upserting with a single-space flight number leaves a
concrete store untouched. -/
theorem C10_blank_flight_noop_witness :
    add_or_update_flight [exFlightRowA] (str " ") (str "R") (str "D") (str "S")
        (str "T") = [exFlightRowA] :=
  C10_blank_flight_noop [exFlightRowA] (str " ") (str "R") (str "D") (str "S")
    (str "T") (by decide)
